import Mathlib

/-!
Verification of the LOVE Vulkan graphics backend
(`src/modules/graphics/vulkan/Graphics.cpp`).

Each section below gives a shallow embedding of one part of the backend,
translated directly from the C++ source, followed by theorems about the
embedded definitions.  Machine integers are modelled as `Nat`/`Int` (no
overflow is reachable at the sizes involved), native Vulkan handles as
`Nat` tokens handed out by a counter, fallible code as `Except`/`Option`,
and the command-buffer side effects of a call as an explicit list of
recorded commands or events.
-/

namespace LoveVulkan

/-! ## Quad batching (`Graphics::drawQuads`)

`drawQuads(start, count, ...)` binds the shared quad index buffer and then
splits the run of `count` quads into sub-batches of at most
`MAX_QUADS_PER_DRAW` quads, one `vkCmdDrawIndexed` per sub-batch, advancing
the base vertex between sub-batches. -/

/-- Modelled from the spec: `LOVE_UINT16_MAX` is defined in the common
headers, which are not part of the given sources.  The spec fixes the
sub-batch bound as 16,384 quads (65,536/4), so the per-draw vertex cap is
modelled as 65536. -/
def MAX_VERTICES_PER_DRAW : Nat := 65536

/-- `const int MAX_QUADS_PER_DRAW = MAX_VERTICES_PER_DRAW / 4;` -/
def MAX_QUADS_PER_DRAW : Nat := MAX_VERTICES_PER_DRAW / 4

theorem MAX_QUADS_PER_DRAW_eq : MAX_QUADS_PER_DRAW = 16384 := rfl

/-- One recorded `vkCmdDrawIndexed(commandBuffer, quadcount * 6, 1, 0, baseVertex, 0)`
call: we keep the index count and the base-vertex offset. -/
structure QuadDrawCall where
  indexCount : Nat
  baseVertex : Int
deriving DecidableEq, Repr

/-- The loop of `Graphics::drawQuads`:
`for (quadindex = 0; quadindex < count; quadindex += MAX_QUADS_PER_DRAW)`
with body `quadcount = min(MAX_QUADS_PER_DRAW, count - quadindex)`, emitting
`vkCmdDrawIndexed(..., quadcount * 6, 1, 0, baseVertex, 0)` and then
`baseVertex += quadcount * 4`.  `count` is a C `int`; a non-positive count
runs zero iterations, which the `Nat` value 0 models faithfully. -/
def drawQuadsLoop (quadindex count : Nat) (baseVertex : Int) : List QuadDrawCall :=
  if quadindex < count then
    let quadcount := min MAX_QUADS_PER_DRAW (count - quadindex)
    ⟨quadcount * 6, baseVertex⟩ ::
      drawQuadsLoop (quadindex + MAX_QUADS_PER_DRAW) count (baseVertex + quadcount * 4)
  else
    []
termination_by count - quadindex
decreasing_by
  simp only [MAX_QUADS_PER_DRAW_eq]
  omega

theorem drawQuadsLoop_eq_cons (quadindex count : Nat) (bv : Int) (h : quadindex < count) :
    drawQuadsLoop quadindex count bv
      = ⟨min 16384 (count - quadindex) * 6, bv⟩ ::
          drawQuadsLoop (quadindex + 16384) count (bv + (min 16384 (count - quadindex) : Nat) * 4) := by
  rw [drawQuadsLoop, if_pos h]
  simp only [MAX_QUADS_PER_DRAW_eq]

theorem drawQuadsLoop_eq_nil (quadindex count : Nat) (bv : Int) (h : ¬ quadindex < count) :
    drawQuadsLoop quadindex count bv = [] := by
  rw [drawQuadsLoop, if_neg h]

/-- `Graphics::drawQuads`: the list of indexed-draw calls recorded for a
batched draw of `count` quads starting at quad `start`
(`int baseVertex = start * 4;`). -/
def drawQuads (start : Int) (count : Nat) : List QuadDrawCall :=
  drawQuadsLoop 0 count (start * 4)

theorem drawQuadsLoop_length_aux (n : Nat) : ∀ (quadindex count : Nat) (bv : Int),
    count - quadindex ≤ n →
    (drawQuadsLoop quadindex count bv).length = (count - quadindex + 16383) / 16384 := by
  induction n with
  | zero =>
      intro quadindex count bv hn
      rw [drawQuadsLoop_eq_nil _ _ _ (by omega)]
      simp only [List.length_nil]
      omega
  | succ n ih =>
      intro quadindex count bv hn
      by_cases h : quadindex < count
      · rw [drawQuadsLoop_eq_cons _ _ _ h, List.length_cons,
          ih (quadindex + 16384) count _ (by omega)]
        omega
      · rw [drawQuadsLoop_eq_nil _ _ _ h]
        simp only [List.length_nil]
        omega

theorem drawQuadsLoop_length (quadindex count : Nat) (bv : Int) :
    (drawQuadsLoop quadindex count bv).length = (count - quadindex + 16383) / 16384 :=
  drawQuadsLoop_length_aux count quadindex count bv (by omega)

theorem drawQuadsLoop_getElem (k : Nat) : ∀ (quadindex count : Nat) (bv : Int),
    k * 16384 + quadindex < count →
    (drawQuadsLoop quadindex count bv)[k]?
      = some ⟨min 16384 (count - quadindex - k * 16384) * 6, bv + (k : Int) * (16384 * 4)⟩ := by
  induction k with
  | zero =>
      intro quadindex count bv h
      rw [drawQuadsLoop_eq_cons _ _ _ (by omega), List.getElem?_cons_zero]
      simp
  | succ k ih =>
      intro quadindex count bv h
      rw [drawQuadsLoop_eq_cons _ _ _ (by omega), List.getElem?_cons_succ]
      have hfull : min 16384 (count - quadindex) = 16384 := min_eq_left (by omega)
      rw [hfull, ih (quadindex + 16384) count _ (by omega)]
      have h1 : count - (quadindex + 16384) - k * 16384 = count - quadindex - (k + 1) * 16384 := by
        omega
      rw [h1]
      congr 2
      push_cast
      ring

/-- C1: a batched draw of `count` quads with `count > 16384` records exactly
`ceil(count / 16384)` indexed-draw calls; the k-th uses base vertex
`start * 4 + k * 16384 * 4` and draws `min(16384, count - k * 16384) * 6`
indices, and the last call covers `count mod 16384` quads (or a full 16384
when `count` is divisible by 16384). -/
theorem drawQuads_batching (start : Int) (count : Nat) (h : 16384 < count) :
    (drawQuads start count).length = (count + 16383) / 16384
    ∧ (∀ k, k < (drawQuads start count).length →
        (drawQuads start count)[k]?
          = some ⟨min 16384 (count - k * 16384) * 6, start * 4 + (k : Int) * (16384 * 4)⟩)
    ∧ (drawQuads start count)[(count + 16383) / 16384 - 1]?
        = some ⟨(if count % 16384 = 0 then 16384 else count % 16384) * 6,
                start * 4 + (((count + 16383) / 16384 - 1 : Nat) : Int) * (16384 * 4)⟩ := by
  have hlen : (drawQuads start count).length = (count + 16383) / 16384 := by
    rw [drawQuads, drawQuadsLoop_length]
    omega
  have helem : ∀ k, k < (drawQuads start count).length →
      (drawQuads start count)[k]?
        = some ⟨min 16384 (count - k * 16384) * 6, start * 4 + (k : Int) * (16384 * 4)⟩ := by
    intro k hk
    rw [hlen] at hk
    have hk1 : k * 16384 + 0 < count := by omega
    rw [drawQuads, drawQuadsLoop_getElem k 0 count (start * 4) hk1]
    simp
  refine ⟨hlen, helem, ?_⟩
  rw [helem ((count + 16383) / 16384 - 1) (by omega)]
  have harg : min 16384 (count - ((count + 16383) / 16384 - 1) * 16384)
      = (if count % 16384 = 0 then 16384 else count % 16384) := by
    by_cases hz : count % 16384 = 0
    · rw [if_pos hz]
      omega
    · rw [if_neg hz]
      omega
  rw [harg]

theorem drawQuads_batching_witness :
    16384 < 20000
    ∧ (drawQuads 3 20000)[1]? = some ⟨min 16384 (20000 - 1 * 16384) * 6,
        3 * 4 + (1 : Int) * (16384 * 4)⟩ := by
  refine ⟨by decide, ?_⟩
  refine (drawQuads_batching 3 20000 (by decide)).2.1 1 ?_
  rw [drawQuads, drawQuadsLoop_length]
  decide

/-! ## Present-mode selection (`Graphics::chooseSwapPresentMode`) -/

inductive VkPresentMode where
  | immediate
  | mailbox
  | fifo
  | fifoRelaxed
deriving DecidableEq, Repr

/-- `Graphics::chooseSwapPresentMode`, translated with the C `switch`
fallthrough kept intact: the user vsync preference is `-1` (adaptive),
`1` (on) or `0` (off); each case checks its preferred mode and, when the
mode is unavailable, falls through into the next case's check, and the
`default` label returns the guaranteed `VK_PRESENT_MODE_FIFO_KHR`. -/
def chooseSwapPresentMode (vsync : Int) (availablePresentModes : List VkPresentMode) :
    VkPresentMode :=
  if vsync = -1 ∧ availablePresentModes.contains .fifoRelaxed then
    .fifoRelaxed
  else if (vsync = -1 ∨ vsync = 1) ∧ availablePresentModes.contains .mailbox then
    .mailbox
  else if (vsync = -1 ∨ vsync = 1 ∨ vsync = 0) ∧ availablePresentModes.contains .immediate then
    .immediate
  else
    .fifo

/-- C4: present-mode selection honours the vsync preference when the
preferred mode is available (adaptive → relaxed-fifo, on → mailbox,
off → immediate), and whenever no better-than-fifo mode whatsoever is
available the guaranteed fifo mode is returned, for any preference. -/
theorem chooseSwapPresentMode_spec :
    (∀ modes : List VkPresentMode, modes.contains .fifoRelaxed = true →
        chooseSwapPresentMode (-1) modes = .fifoRelaxed)
    ∧ (∀ modes : List VkPresentMode, modes.contains .mailbox = true →
        chooseSwapPresentMode 1 modes = .mailbox)
    ∧ (∀ modes : List VkPresentMode, modes.contains .immediate = true →
        chooseSwapPresentMode 0 modes = .immediate)
    ∧ (∀ (vsync : Int) (modes : List VkPresentMode),
        modes.contains .fifoRelaxed = false → modes.contains .mailbox = false →
        modes.contains .immediate = false →
        chooseSwapPresentMode vsync modes = .fifo) := by
  refine ⟨?_, ?_, ?_, ?_⟩
  · intro modes hm
    simp only [List.elem_eq_mem, decide_eq_true_eq] at hm
    simp [chooseSwapPresentMode, hm]
  · intro modes hm
    simp only [List.elem_eq_mem, decide_eq_true_eq] at hm
    simp [chooseSwapPresentMode, hm]
  · intro modes hm
    simp only [List.elem_eq_mem, decide_eq_true_eq] at hm
    simp [chooseSwapPresentMode, hm]
  · intro vsync modes h1 h2 h3
    simp only [List.elem_eq_mem, decide_eq_false_iff_not] at h1 h2 h3
    simp [chooseSwapPresentMode, h1, h2, h3]

theorem chooseSwapPresentMode_spec_witness :
    chooseSwapPresentMode (-1) [.fifoRelaxed] = .fifoRelaxed
    ∧ chooseSwapPresentMode 1 [.mailbox] = .mailbox
    ∧ chooseSwapPresentMode 0 [.immediate] = .immediate
    ∧ chooseSwapPresentMode 2 [.fifo] = .fifo := by
  refine ⟨?_, ?_, ?_, ?_⟩
  · exact chooseSwapPresentMode_spec.1 _ (by decide)
  · exact chooseSwapPresentMode_spec.2.1 _ (by decide)
  · exact chooseSwapPresentMode_spec.2.2.1 _ (by decide)
  · exact chooseSwapPresentMode_spec.2.2.2 2 _ (by decide) (by decide) (by decide)

/-! ## Object caches (`Graphics::getFramebuffer`, the render-pass lookup in
`Graphics::startRenderPass`, `Graphics::getCachedSampler`, and the cache in
`Graphics::ensureGraphicsPipelineConfiguration`)

All four caches share one pattern: look the configuration key up in the map;
on a hit return the stored native object, on a miss build the object with the
dedicated `create*` builder and insert it.  `ObjectCache` embeds that pattern
with native handles modelled as `Nat` tokens handed out by `nextHandle`
(each `vkCreate*` call returns a fresh handle).  `cacheFind` is the map
lookup by structural key equality. -/

structure ObjectCache (K : Type) where
  entries : List (K × Nat)
  nextHandle : Nat
deriving Repr

def cacheFind {K : Type} [DecidableEq K] (entries : List (K × Nat)) (k : K) : Option Nat :=
  match entries with
  | [] => none
  | (k2, v) :: rest => if k = k2 then some v else cacheFind rest k

def getCached {K : Type} [DecidableEq K] (c : ObjectCache K) (k : K) : ObjectCache K × Nat :=
  match cacheFind c.entries k with
  | some v => (c, v)
  | none =>
      ({ entries := (k, c.nextHandle) :: c.entries, nextHandle := c.nextHandle + 1 },
       c.nextHandle)

def CacheWF {K : Type} (c : ObjectCache K) : Prop :=
  (∀ e ∈ c.entries, e.2 < c.nextHandle) ∧ (c.entries.map Prod.snd).Nodup

theorem cacheFind_mem {K : Type} [DecidableEq K] {entries : List (K × Nat)} {k : K} {v : Nat}
    (h : cacheFind entries k = some v) : (k, v) ∈ entries := by
  induction entries with
  | nil => simp [cacheFind] at h
  | cons e rest ih =>
      obtain ⟨k2, v2⟩ := e
      rw [cacheFind] at h
      by_cases hk : k = k2
      · rw [if_pos hk] at h
        obtain rfl := hk
        obtain rfl : v2 = v := by injection h
        exact List.mem_cons_self _ _
      · rw [if_neg hk] at h
        exact List.mem_cons_of_mem _ (ih h)

theorem cache_pairs_eq_of_snd_eq {K : Type} {l : List (K × Nat)} (hnd : (l.map Prod.snd).Nodup)
    {a b : K × Nat} (ha : a ∈ l) (hb : b ∈ l) (hsnd : a.2 = b.2) : a = b := by
  induction l with
  | nil => simp at ha
  | cons e rest ih =>
      simp only [List.map_cons, List.nodup_cons] at hnd
      rcases List.mem_cons.mp ha with rfl | ha2
      · rcases List.mem_cons.mp hb with rfl | hb2
        · rfl
        · exact absurd (hsnd ▸ List.mem_map_of_mem Prod.snd hb2) hnd.1
      · rcases List.mem_cons.mp hb with rfl | hb2
        · exact absurd (hsnd ▸ List.mem_map_of_mem Prod.snd ha2) hnd.1
        · exact ih hnd.2 ha2 hb2

/-- C2: each of the four configuration-keyed object caches (render pass,
framebuffer, graphics pipeline, sampler) follows the find-or-create pattern
embodied by `getCached`: querying twice with structurally equal keys returns
the identical native handle both times (the first miss builds and inserts
the object, after which the same key always hits), and structurally
distinct keys never share a cache entry (their handles differ). -/
theorem getCached_idempotent_distinct {K : Type} [DecidableEq K]
    (c : ObjectCache K) (k1 k2 : K) (hwf : CacheWF c) :
    getCached (getCached c k1).1 k1 = getCached c k1
    ∧ cacheFind (getCached c k1).1.entries k1 = some (getCached c k1).2
    ∧ CacheWF (getCached c k1).1
    ∧ (k1 ≠ k2 → (getCached (getCached c k1).1 k2).2 ≠ (getCached c k1).2) := by
  obtain ⟨hlt, hnd⟩ := hwf
  cases hfind : cacheFind c.entries k1 with
  | some v =>
      refine ⟨?_, ?_, ?_, ?_⟩
      · simp only [getCached, hfind]
      · simp only [getCached, hfind]
      · simp only [getCached, hfind]
        exact ⟨hlt, hnd⟩
      · intro hne
        cases hfind2 : cacheFind c.entries k2 with
        | some v2 =>
            simp only [getCached, hfind, hfind2]
            intro hv
            have heq := cache_pairs_eq_of_snd_eq hnd (cacheFind_mem hfind2) (cacheFind_mem hfind) hv
            exact hne (by injection heq with h1 _; exact h1.symm)
        | none =>
            simp only [getCached, hfind, hfind2]
            have := hlt _ (cacheFind_mem hfind)
            omega
  | none =>
      have hcons : cacheFind ((k1, c.nextHandle) :: c.entries) k1 = some c.nextHandle := by
        rw [cacheFind, if_pos rfl]
      refine ⟨?_, ?_, ?_, ?_⟩
      · simp only [getCached, hfind, hcons]
      · simp only [getCached, hfind]
        exact hcons
      · simp only [getCached, hfind]
        constructor
        · intro e he
          rcases List.mem_cons.mp he with rfl | he2
          · exact Nat.lt_succ_self _
          · exact Nat.lt_succ_of_lt (hlt _ he2)
        · simp only [List.map_cons, List.nodup_cons]
          refine ⟨?_, hnd⟩
          intro hmem
          obtain ⟨e, he, hesnd⟩ := List.mem_map.mp hmem
          have h2 : e.2 = c.nextHandle := hesnd
          have h3 := hlt _ he
          omega
      · intro hne
        have hskip : cacheFind ((k1, c.nextHandle) :: c.entries) k2 = cacheFind c.entries k2 := by
          rw [cacheFind, if_neg (Ne.symm hne)]
        cases hfind2 : cacheFind c.entries k2 with
        | some v2 =>
            simp only [getCached, hfind, hskip, hfind2]
            have := hlt _ (cacheFind_mem hfind2)
            omega
        | none =>
            simp only [getCached, hfind, hskip, hfind2]
            omega

theorem getCached_idempotent_distinct_witness :
    getCached (getCached (⟨[], 0⟩ : ObjectCache Nat) 0).1 0 = getCached (⟨[], 0⟩ : ObjectCache Nat) 0
    ∧ (getCached (getCached (⟨[], 0⟩ : ObjectCache Nat) 0).1 1).2
        ≠ (getCached (⟨[], 0⟩ : ObjectCache Nat) 0).2 := by
  have h := getCached_idempotent_distinct (⟨[], 0⟩ : ObjectCache Nat) 0 1
    ⟨by simp, by simp⟩
  exact ⟨h.1, h.2.2.2 (by decide)⟩

/-! ## Pipeline binding (`Graphics::ensureGraphicsPipelineConfiguration`)

`ensureGraphicsPipelineConfiguration` resolves the pipeline for the given
configuration through the pipeline cache and records a `vkCmdBindPipeline`
command only when the resolved pipeline differs from
`currentGraphicsPipeline`; a cache miss creates the pipeline, inserts it and
always binds.  `bindCount` counts the recorded bind commands.  A sequence of
draw calls with equal configurations and no intervening `startRenderPass`
(which resets `currentGraphicsPipeline` to null) is modelled as a fold of
this function over the list of per-draw configurations. -/

structure PipelineBindState (K : Type) where
  graphicsPipelines : ObjectCache K
  currentGraphicsPipeline : Option Nat
  bindCount : Nat
deriving Repr

def ensureGraphicsPipelineConfiguration {K : Type} [DecidableEq K]
    (s : PipelineBindState K) (configuration : K) : PipelineBindState K :=
  match cacheFind s.graphicsPipelines.entries configuration with
  | some p =>
      if some p ≠ s.currentGraphicsPipeline then
        { s with currentGraphicsPipeline := some p, bindCount := s.bindCount + 1 }
      else
        s
  | none =>
      let pipeline := s.graphicsPipelines.nextHandle
      { graphicsPipelines := { entries := (configuration, pipeline) :: s.graphicsPipelines.entries,
                               nextHandle := pipeline + 1 },
        currentGraphicsPipeline := some pipeline,
        bindCount := s.bindCount + 1 }

def resolvedPipeline {K : Type} [DecidableEq K] (s : PipelineBindState K) (configuration : K) :
    Option Nat :=
  match cacheFind s.graphicsPipelines.entries configuration with
  | some p => some p
  | none => some s.graphicsPipelines.nextHandle

def PipelineWF {K : Type} (s : PipelineBindState K) : Prop :=
  (forall e, e ∈ s.graphicsPipelines.entries → e.2 < s.graphicsPipelines.nextHandle)
  ∧ (forall p, s.currentGraphicsPipeline = some p → p < s.graphicsPipelines.nextHandle)

theorem ensure_idem {K : Type} [DecidableEq K] (s : PipelineBindState K) (c : K) :
    ensureGraphicsPipelineConfiguration (ensureGraphicsPipelineConfiguration s c) c
      = ensureGraphicsPipelineConfiguration s c := by
  cases hfind : cacheFind s.graphicsPipelines.entries c with
  | some p =>
      by_cases hcur : some p ≠ s.currentGraphicsPipeline
      · have h1 : ensureGraphicsPipelineConfiguration s c
            = { s with currentGraphicsPipeline := some p, bindCount := s.bindCount + 1 } := by
          simp only [ensureGraphicsPipelineConfiguration, hfind, if_pos hcur]
        rw [h1]
        simp only [ensureGraphicsPipelineConfiguration, hfind]
        simp
      · have h1 : ensureGraphicsPipelineConfiguration s c = s := by
          simp only [ensureGraphicsPipelineConfiguration, hfind, if_neg hcur]
        rw [h1, h1]
  | none =>
      have h1 : ensureGraphicsPipelineConfiguration s c
          = { graphicsPipelines := { entries := (c, s.graphicsPipelines.nextHandle) :: s.graphicsPipelines.entries,
                                     nextHandle := s.graphicsPipelines.nextHandle + 1 },
              currentGraphicsPipeline := some s.graphicsPipelines.nextHandle,
              bindCount := s.bindCount + 1 } := by
        simp only [ensureGraphicsPipelineConfiguration, hfind]
      rw [h1]
      have hcons : cacheFind ((c, s.graphicsPipelines.nextHandle) :: s.graphicsPipelines.entries) c
          = some s.graphicsPipelines.nextHandle := by
        rw [cacheFind, if_pos rfl]
      simp only [ensureGraphicsPipelineConfiguration, hcons]
      simp

theorem ensure_foldl_const {K : Type} [DecidableEq K] (s : PipelineBindState K) (c : K) :
    ∀ l : List K, (∀ x ∈ l, x = c) →
    List.foldl ensureGraphicsPipelineConfiguration (ensureGraphicsPipelineConfiguration s c) l
      = ensureGraphicsPipelineConfiguration s c := by
  intro l
  induction l with
  | nil => intro _; rfl
  | cons x rest ih =>
      intro hall
      obtain rfl : x = c := hall x (List.mem_cons_self _ _)
      rw [List.foldl_cons, ensure_idem]
      exact ih fun y hy => hall y (List.mem_cons_of_mem _ hy)

theorem ensure_bindCount_le {K : Type} [DecidableEq K] (s : PipelineBindState K) (c : K) :
    (ensureGraphicsPipelineConfiguration s c).bindCount ≤ s.bindCount + 1 := by
  cases hfind : cacheFind s.graphicsPipelines.entries c with
  | some p =>
      by_cases hcur : some p ≠ s.currentGraphicsPipeline
      · simp only [ensureGraphicsPipelineConfiguration, hfind, if_pos hcur]
        omega
      · simp only [ensureGraphicsPipelineConfiguration, hfind, if_neg hcur]
        omega
  | none =>
      simp only [ensureGraphicsPipelineConfiguration, hfind]
      omega

/-- C6: across a sequence of draw calls whose resolved pipeline
configurations are all equal, `ensureGraphicsPipelineConfiguration` records
the `vkCmdBindPipeline` command at most once, and a bind is recorded only
when the resolved pipeline object differs from the currently bound pipeline
handle (a call that does not bind leaves the state untouched). -/
theorem ensure_pipeline_bind_at_most_once {K : Type} [DecidableEq K]
    (s : PipelineBindState K) (c : K) (l : List K) (hwf : PipelineWF s) :
    ((∀ x ∈ l, x = c) →
      (List.foldl ensureGraphicsPipelineConfiguration s l).bindCount ≤ s.bindCount + 1)
    ∧ ((ensureGraphicsPipelineConfiguration s c).bindCount = s.bindCount + 1 →
        resolvedPipeline s c ≠ s.currentGraphicsPipeline)
    ∧ ((ensureGraphicsPipelineConfiguration s c).bindCount = s.bindCount →
        ensureGraphicsPipelineConfiguration s c = s) := by
  obtain ⟨hlt, hcur⟩ := hwf
  refine ⟨?_, ?_, ?_⟩
  · intro hall
    cases l with
    | nil =>
        simp only [List.foldl_nil]
        omega
    | cons x rest =>
        rw [List.foldl_cons, hall x (List.mem_cons_self _ _),
          ensure_foldl_const s c rest (fun y hy => hall y (List.mem_cons_of_mem _ hy))]
        exact ensure_bindCount_le s c
  · intro hbind
    cases hfind : cacheFind s.graphicsPipelines.entries c with
    | some p =>
        by_cases hc : some p ≠ s.currentGraphicsPipeline
        · simp only [resolvedPipeline, hfind]
          exact hc
        · simp only [ensureGraphicsPipelineConfiguration, hfind, if_neg hc] at hbind
          omega
    | none =>
        simp only [resolvedPipeline, hfind]
        intro hsame
        have := hcur s.graphicsPipelines.nextHandle hsame.symm
        omega
  · intro hbind
    cases hfind : cacheFind s.graphicsPipelines.entries c with
    | some p =>
        by_cases hc : some p ≠ s.currentGraphicsPipeline
        · simp only [ensureGraphicsPipelineConfiguration, hfind, if_pos hc] at hbind
          omega
        · simp only [ensureGraphicsPipelineConfiguration, hfind, if_neg hc]
    | none =>
        simp only [ensureGraphicsPipelineConfiguration, hfind] at hbind
        omega

theorem ensure_pipeline_bind_at_most_once_witness :
    (List.foldl ensureGraphicsPipelineConfiguration
        (⟨⟨[], 0⟩, none, 0⟩ : PipelineBindState Nat) [7, 7, 7]).bindCount ≤ 0 + 1 := by
  have h := ensure_pipeline_bind_at_most_once (⟨⟨[], 0⟩, none, 0⟩ : PipelineBindState Nat) 7 [7, 7, 7]
    ⟨by simp, by simp⟩
  exact h.1 (by decide)

/-! ## Vertex-format synthesis (`Graphics::createVulkanVertexFormat`,
`Graphics::usesConstantVertexColor`, and the vertex-buffer binding part of
`Graphics::prepareDraw`)

`ATTRIB_COLOR` (= 2) and `VertexAttributes::MAX` (= 32) come from the
engine's vertex headers, which are not under `src/`; only their values are
needed.  `VertexAttributes.attribs`/`bufferLayouts` are the per-attribute
and per-buffer arrays, modelled as functions from the index. -/

def ATTRIB_COLOR : Nat := 2

structure VertexAttribInfo where
  bufferIndex : Nat
  offsetFromVertex : Nat
  format : Nat
deriving DecidableEq, Repr

structure BufferLayout where
  stride : Nat
deriving DecidableEq, Repr

structure VertexAttributes where
  enableBits : Nat
  instanceBits : Nat
  attribs : Nat → VertexAttribInfo
  bufferLayouts : Nat → BufferLayout

inductive VkVertexInputRate where
  | perVertex
  | perInstance
deriving DecidableEq, Repr

inductive VkFormat where
  | r32g32b32a32Sfloat
  | fromDataFormat (fmt : Nat)
deriving DecidableEq, Repr

structure VkVertexInputBindingDescription where
  binding : Nat
  stride : Nat
  inputRate : VkVertexInputRate
deriving DecidableEq, Repr

structure VkVertexInputAttributeDescription where
  location : Nat
  binding : Nat
  offset : Nat
  format : VkFormat
deriving DecidableEq, Repr

structure VertexFormatState where
  usedBuffers : List Nat
  bindingDescriptions : List VkVertexInputBindingDescription
  attributeDescriptions : List VkVertexInputAttributeDescription
  usesColor : Bool
  highestBufferBinding : Nat
deriving DecidableEq, Repr

/-- One iteration of the `for (i = 0; i < VertexAttributes::MAX; i++)` loop
of `Graphics::createVulkanVertexFormat`: an enabled attribute records
`usesColor`, inserts a binding description for its buffer the first time
that buffer index is seen (stride from the buffer layout, input rate from
`instanceBits`), tracks the highest buffer binding, and appends its
attribute description. -/
def createVulkanVertexFormatStep (vertexAttributes : VertexAttributes)
    (s : VertexFormatState) (i : Nat) : VertexFormatState :=
  if vertexAttributes.enableBits.testBit i then
    let s1 := if i = ATTRIB_COLOR then { s with usesColor := true } else s
    let attrib := vertexAttributes.attribs i
    let bufferBinding := attrib.bufferIndex
    let s2 :=
      if bufferBinding ∈ s1.usedBuffers then s1
      else
        { s1 with
          usedBuffers := bufferBinding :: s1.usedBuffers,
          bindingDescriptions := s1.bindingDescriptions ++
            [⟨bufferBinding, (vertexAttributes.bufferLayouts bufferBinding).stride,
              if vertexAttributes.instanceBits.testBit bufferBinding then .perInstance
              else .perVertex⟩],
          highestBufferBinding := max s1.highestBufferBinding bufferBinding }
    { s2 with
      attributeDescriptions := s2.attributeDescriptions ++
        [⟨i, bufferBinding, attrib.offsetFromVertex, .fromDataFormat attrib.format⟩] }
  else
    s

/-- `Graphics::createVulkanVertexFormat`: the binding and attribute
descriptions for the pipeline vertex-input state.  When no color attribute
is enabled, a synthetic stride-0 binding one past the highest real buffer
binding is appended together with a `VK_FORMAT_R32G32B32A32_SFLOAT`
attribute at location `ATTRIB_COLOR`. -/
def createVulkanVertexFormat (vertexAttributes : VertexAttributes) :
    List VkVertexInputBindingDescription × List VkVertexInputAttributeDescription :=
  let s := (List.range 32).foldl (createVulkanVertexFormatStep vertexAttributes)
    ⟨[], [], [], false, 0⟩
  if !s.usesColor then
    let constantColorBufferBinding := s.highestBufferBinding + 1
    (s.bindingDescriptions ++ [⟨constantColorBufferBinding, 0, .perVertex⟩],
     s.attributeDescriptions ++
       [⟨ATTRIB_COLOR, constantColorBufferBinding, 0, .r32g32b32a32Sfloat⟩])
  else
    (s.bindingDescriptions, s.attributeDescriptions)

/-- `Graphics::usesConstantVertexColor`:
`return !!(vertexAttributes.enableBits & (1u << ATTRIB_COLOR));` -/
def usesConstantVertexColor (vertexAttributes : VertexAttributes) : Bool :=
  vertexAttributes.enableBits.testBit ATTRIB_COLOR

inductive BoundVertexBuffer where
  | user (i : Nat)
  | constantColor
deriving DecidableEq, Repr

structure BufferBindings where
  useBits : Nat
deriving DecidableEq, Repr

/-- The vertex-buffer binding part of `Graphics::prepareDraw`: the buffers
passed to `vkCmdBindVertexBuffers`, in order - one per bit set in
`buffers.useBits`, plus the constant-color stream buffer appended when
`usesConstantVertexColor(attributes)` holds. -/
def prepareDrawBufferVector (attributes : VertexAttributes) (buffers : BufferBindings) :
    List BoundVertexBuffer :=
  ((List.range 32).filter (fun i => buffers.useBits.testBit i)).map .user
    ++ (if usesConstantVertexColor attributes then [.constantColor] else [])

def posOnlyAttributes : VertexAttributes :=
  { enableBits := 1, instanceBits := 0,
    attribs := fun _ => ⟨0, 0, 0⟩, bufferLayouts := fun _ => ⟨8⟩ }

def posColorAttributes : VertexAttributes :=
  { enableBits := 5, instanceBits := 0,
    attribs := fun _ => ⟨0, 0, 0⟩, bufferLayouts := fun _ => ⟨8⟩ }

/-- C3 (code bug): with no color attribute enabled (`enableBits = 1`,
position only) the pipeline vertex format does contain the synthetic
stride-0 binding at index one past the highest real binding, but
`prepareDraw` does not append the constant white-color buffer to the bound
vertex buffers, leaving that binding without a buffer; conversely with a
color attribute enabled (`enableBits = 5`) no synthetic binding exists in
the format, yet `prepareDraw` does append the constant-color buffer.
`usesConstantVertexColor` tests for the presence of `ATTRIB_COLOR` where
its name, the buffer's stated purpose and `createVulkanVertexFormat` all
require its absence. -/
theorem constantVertexColor_inverted :
    usesConstantVertexColor posOnlyAttributes = false
    ∧ (createVulkanVertexFormat posOnlyAttributes).1
        = [⟨0, 8, .perVertex⟩, ⟨1, 0, .perVertex⟩]
    ∧ (createVulkanVertexFormat posOnlyAttributes).2
        = [⟨0, 0, 0, .fromDataFormat 0⟩, ⟨ATTRIB_COLOR, 1, 0, .r32g32b32a32Sfloat⟩]
    ∧ prepareDrawBufferVector posOnlyAttributes ⟨1⟩ = [.user 0]
    ∧ usesConstantVertexColor posColorAttributes = true
    ∧ (createVulkanVertexFormat posColorAttributes).1 = [⟨0, 8, .perVertex⟩]
    ∧ prepareDrawBufferVector posColorAttributes ⟨1⟩ = [.user 0, .constantColor] := by
  decide

/-! ## Device selection (`Graphics::rateDeviceSuitability`,
`Graphics::findQueueFamilies`, `Graphics::checkDeviceExtensionSupport`,
`Graphics::pickPhysicalDevice`)

A physical device is characterised by the facts these functions query:
its type, queue-family properties (graphics flag and surface present
support), available device extensions, the surface format/present-mode
counts reported by `querySwapChainSupport`, and the two required features. -/

inductive VkPhysicalDeviceType where
  | other
  | integratedGpu
  | discreteGpu
  | virtualGpu
  | cpu
deriving DecidableEq, Repr

structure VkQueueFamilyProperties where
  graphicsBit : Bool
  presentSupport : Bool
deriving DecidableEq, Repr

structure PhysicalDevice where
  deviceType : VkPhysicalDeviceType
  queueFamilies : List VkQueueFamilyProperties
  availableExtensions : List String
  surfaceFormatCount : Nat
  presentModeCount : Nat
  samplerAnisotropy : Bool
  fillModeNonSolid : Bool
deriving DecidableEq, Repr

structure QueueFamilyIndices where
  graphicsFamily : Option Nat
  presentFamily : Option Nat
deriving DecidableEq, Repr

/-- `QueueFamilyIndices::isComplete` (declared in the header): both the
graphics and the present family have been found. -/
def QueueFamilyIndices.isComplete (q : QueueFamilyIndices) : Bool :=
  q.graphicsFamily.isSome && q.presentFamily.isSome

/-- The loop of `Graphics::findQueueFamilies`: scan the queue families in
order, record the index of any family with the graphics bit and of any
family with present support, and break as soon as both are found. -/
def findQueueFamiliesLoop : List VkQueueFamilyProperties → Nat → QueueFamilyIndices →
    QueueFamilyIndices
  | [], _, indices => indices
  | qf :: rest, i, indices =>
      let indices1 := if qf.graphicsBit then { indices with graphicsFamily := some i }
        else indices
      let indices2 := if qf.presentSupport then { indices1 with presentFamily := some i }
        else indices1
      if indices2.isComplete then indices2 else findQueueFamiliesLoop rest (i + 1) indices2

def findQueueFamilies (device : PhysicalDevice) : QueueFamilyIndices :=
  findQueueFamiliesLoop device.queueFamilies 0 ⟨none, none⟩

/-- `deviceExtensions = { VK_KHR_SWAPCHAIN_EXTENSION_NAME }`. -/
def deviceExtensions : List String := ["VK_KHR_swapchain"]

/-- `Graphics::checkDeviceExtensionSupport`: every required extension is
erased by some available extension, i.e. all required extensions are
available. -/
def checkDeviceExtensionSupport (device : PhysicalDevice) : Bool :=
  deviceExtensions.all fun e => device.availableExtensions.contains e

/-- `swapChainAdequate = !swapChainSupport.formats.empty() &&
!swapChainSupport.presentModes.empty();` from `rateDeviceSuitability`,
phrased on the reported counts. -/
def swapChainAdequate (device : PhysicalDevice) : Bool :=
  !(device.surfaceFormatCount == 0) && !(device.presentModeCount == 0)

/-- The score bonus `rateDeviceSuitability` grants for each adapter type
(used to state the closed form of the score). -/
def deviceTypeBonus : VkPhysicalDeviceType → Int
  | .discreteGpu => 1000
  | .integratedGpu => 100
  | .virtualGpu => 10
  | _ => 0

/-- `Graphics::rateDeviceSuitability`: base score 1, one type bonus, then
each failed requirement forces the score to 0. -/
def rateDeviceSuitability (device : PhysicalDevice) : Int :=
  let score : Int := 1
  let score := if device.deviceType = .discreteGpu then score + 1000 else score
  let score := if device.deviceType = .integratedGpu then score + 100 else score
  let score := if device.deviceType = .virtualGpu then score + 10 else score
  let indices := findQueueFamilies device
  let score := if !indices.isComplete then 0 else score
  let extensionsSupported := checkDeviceExtensionSupport device
  let score := if !extensionsSupported then 0 else score
  let score := if extensionsSupported && !(swapChainAdequate device) then 0 else score
  let score := if !device.samplerAnisotropy then 0 else score
  let score := if !device.fillModeNonSolid then 0 else score
  score

/-- Candidate accumulation in `Graphics::pickPhysicalDevice`: the devices
are inserted into a `std::multimap` keyed by score and `rbegin()` takes the
entry with the highest score (the last-inserted among ties); folding this
step over the device list lands on that same entry. -/
def pickCandidateStep (acc : Option PhysicalDevice) (d : PhysicalDevice) :
    Option PhysicalDevice :=
  match acc with
  | none => some d
  | some b => if rateDeviceSuitability d ≥ rateDeviceSuitability b then some d else some b

/-- `Graphics::pickPhysicalDevice`: no devices at all is a fatal error;
otherwise the best-scoring device is chosen if its score is positive, and
an all-zero candidate set is the fatal error "failed to find a suitable
gpu". -/
def pickPhysicalDevice (devices : List PhysicalDevice) : Except String PhysicalDevice :=
  if devices.isEmpty then
    .error "failed to find GPUs with Vulkan support"
  else
    match devices.foldl pickCandidateStep none with
    | some b =>
        if rateDeviceSuitability b > 0 then .ok b
        else .error "failed to find a suitable gpu"
    | none => .error "failed to find GPUs with Vulkan support"

/-- A fully capable adapter whose type is `VK_PHYSICAL_DEVICE_TYPE_CPU`:
it receives no type bonus, so its score is exactly 1. -/
def cpuAdapter : PhysicalDevice :=
  { deviceType := .cpu, queueFamilies := [⟨true, true⟩],
    availableExtensions := ["VK_KHR_swapchain"],
    surfaceFormatCount := 1, presentModeCount := 1,
    samplerAnisotropy := true, fillModeNonSolid := true }

/-- C5 counterexample: a fully capable CPU-type adapter scores 1, which is
neither 0 nor `1 + 1000` nor `1 + 100` nor `1 + 10` - the claim's "base 1
plus exactly one of +1000/+100/+10" does not hold for every adapter. -/
theorem rateDeviceSuitability_cpu_counterexample :
    rateDeviceSuitability cpuAdapter = 1
    ∧ ¬ (rateDeviceSuitability cpuAdapter = 0
        ∨ rateDeviceSuitability cpuAdapter = 1 + 1000
        ∨ rateDeviceSuitability cpuAdapter = 1 + 100
        ∨ rateDeviceSuitability cpuAdapter = 1 + 10) := by
  decide

theorem findQueueFamiliesLoop_isSome :
    ∀ (l : List VkQueueFamilyProperties) (i : Nat) (acc : QueueFamilyIndices),
    (findQueueFamiliesLoop l i acc).graphicsFamily.isSome
        = (acc.graphicsFamily.isSome || l.any (fun qf => qf.graphicsBit))
    ∧ (findQueueFamiliesLoop l i acc).presentFamily.isSome
        = (acc.presentFamily.isSome || l.any (fun qf => qf.presentSupport)) := by
  intro l
  induction l with
  | nil =>
      intro i acc
      simp [findQueueFamiliesLoop]
  | cons qf rest ih =>
      intro i acc
      rw [findQueueFamiliesLoop]
      by_cases hg : qf.graphicsBit <;> by_cases hp : qf.presentSupport <;>
        simp only [hg, hp, if_true, if_false, Bool.false_eq_true, ite_true, ite_false] <;>
        split <;>
        constructor <;> simp_all [QueueFamilyIndices.isComplete]

theorem pickBest_mem :
    ∀ (l : List PhysicalDevice) (acc : Option PhysicalDevice) (b : PhysicalDevice),
    l.foldl pickCandidateStep acc = some b → b ∈ l ∨ acc = some b := by
  intro l
  induction l with
  | nil =>
      intro acc b h
      exact Or.inr h
  | cons d rest ih =>
      intro acc b h
      rw [List.foldl_cons] at h
      rcases ih (pickCandidateStep acc d) b h with hmem | hacc
      · exact Or.inl (List.mem_cons_of_mem _ hmem)
      · have hcases : pickCandidateStep acc d = acc ∨ pickCandidateStep acc d = some d := by
          cases acc with
          | none => exact Or.inr rfl
          | some x =>
              by_cases hge : rateDeviceSuitability d ≥ rateDeviceSuitability x
              · exact Or.inr (by simp [pickCandidateStep, hge])
              · exact Or.inl (by simp [pickCandidateStep, hge])
        rcases hcases with he | hd
        · exact Or.inr (he ▸ hacc)
        · rw [hd] at hacc
          obtain rfl : d = b := by injection hacc
          exact Or.inl (List.mem_cons_self _ _)

theorem pick_foldl_some :
    ∀ (l : List PhysicalDevice) (a : PhysicalDevice),
    ∃ b, List.foldl pickCandidateStep (some a) l = some b := by
  intro l
  induction l with
  | nil => exact fun a => ⟨a, rfl⟩
  | cons d rest ih =>
      intro a
      rw [List.foldl_cons]
      by_cases hge : rateDeviceSuitability d ≥ rateDeviceSuitability a
      · rw [show pickCandidateStep (some a) d = some d by simp [pickCandidateStep, hge]]
        exact ih d
      · rw [show pickCandidateStep (some a) d = some a by simp [pickCandidateStep, hge]]
        exact ih a

/-- C5 (amended): the suitability score is 1 plus the bonus determined by
the adapter type (1000 discrete, 100 integrated, 10 virtual, no bonus for
CPU/other adapters), forced to 0 exactly when the adapter lacks a graphics
queue family or a present-capable queue family, lacks a required device
extension, reports no surface format or no present mode, or lacks sampler
anisotropy or non-solid fill; and a non-empty candidate set in which every
adapter scores 0 makes device selection fail with the fatal setup error. -/
theorem rateDeviceSuitability_spec (device : PhysicalDevice)
    (devices : List PhysicalDevice) :
    (rateDeviceSuitability device =
        (if ((findQueueFamilies device).isComplete && checkDeviceExtensionSupport device
              && swapChainAdequate device && device.samplerAnisotropy
              && device.fillModeNonSolid)
         then 1 + deviceTypeBonus device.deviceType else 0))
    ∧ ((findQueueFamilies device).isComplete
        = (device.queueFamilies.any (fun qf => qf.graphicsBit)
            && device.queueFamilies.any (fun qf => qf.presentSupport)))
    ∧ (rateDeviceSuitability device = 0 ↔
        (device.queueFamilies.any (fun qf => qf.graphicsBit) = false
         ∨ device.queueFamilies.any (fun qf => qf.presentSupport) = false
         ∨ checkDeviceExtensionSupport device = false
         ∨ device.surfaceFormatCount = 0 ∨ device.presentModeCount = 0
         ∨ device.samplerAnisotropy = false ∨ device.fillModeNonSolid = false))
    ∧ (devices ≠ [] → (∀ d ∈ devices, rateDeviceSuitability d = 0) →
        pickPhysicalDevice devices = .error "failed to find a suitable gpu") := by
  have hcomplete : (findQueueFamilies device).isComplete
      = (device.queueFamilies.any (fun qf => qf.graphicsBit)
          && device.queueFamilies.any (fun qf => qf.presentSupport)) := by
    obtain ⟨h1, h2⟩ := findQueueFamiliesLoop_isSome device.queueFamilies 0 ⟨none, none⟩
    rw [findQueueFamilies, QueueFamilyIndices.isComplete, h1, h2]
    simp
  have hbonus_nonneg : 0 ≤ deviceTypeBonus device.deviceType := by
    cases device.deviceType <;> simp [deviceTypeBonus]
  have hbody : rateDeviceSuitability device =
      (if ((findQueueFamilies device).isComplete && checkDeviceExtensionSupport device
            && swapChainAdequate device && device.samplerAnisotropy
            && device.fillModeNonSolid)
       then 1 + deviceTypeBonus device.deviceType else 0) := by
    simp only [rateDeviceSuitability]
    by_cases h1 : (findQueueFamilies device).isComplete <;>
      by_cases h2 : checkDeviceExtensionSupport device <;>
      by_cases h3 : swapChainAdequate device <;>
      by_cases h4 : device.samplerAnisotropy <;>
      by_cases h5 : device.fillModeNonSolid <;>
      simp [h1, h2, h3, h4, h5] <;>
      (cases hdt : device.deviceType <;> simp [hdt, deviceTypeBonus])
  refine ⟨hbody, hcomplete, ?_, ?_⟩
  · have hrate0 : rateDeviceSuitability device = 0 ↔
        ((findQueueFamilies device).isComplete && checkDeviceExtensionSupport device
          && swapChainAdequate device && device.samplerAnisotropy
          && device.fillModeNonSolid) = false := by
      rw [hbody]
      by_cases hc : ((findQueueFamilies device).isComplete && checkDeviceExtensionSupport device
          && swapChainAdequate device && device.samplerAnisotropy
          && device.fillModeNonSolid) = true
      · rw [if_pos hc]
        constructor
        · intro h0
          exact absurd h0 (by omega)
        · intro hfalse
          rw [hc] at hfalse
          exact absurd hfalse (by simp)
      · have hcf := Bool.not_eq_true _ |>.mp hc
        simp [hcf]
    have hadq : swapChainAdequate device = false ↔
        (device.surfaceFormatCount = 0 ∨ device.presentModeCount = 0) := by
      by_cases hf : device.surfaceFormatCount = 0 <;>
        by_cases hm : device.presentModeCount = 0 <;>
        simp [swapChainAdequate, hf, hm]
    have hiff : ∀ (a b c3 c4 c5 c6 : Bool),
        ((a && b && c3 && c4 && c5 && c6) = false
          ↔ (a = false ∨ b = false ∨ c3 = false ∨ c4 = false ∨ c5 = false ∨ c6 = false)) := by
      decide
    rw [hrate0, hcomplete, hiff, hadq]
    tauto
  · intro hne hzero
    rw [pickPhysicalDevice, if_neg (by simp [hne])]
    cases hl : devices with
    | nil => exact absurd hl hne
    | cons d rest =>
        have hsome : ∃ b, List.foldl pickCandidateStep (none : Option PhysicalDevice) (d :: rest)
            = some b := by
          rw [List.foldl_cons]
          exact pick_foldl_some rest d
        obtain ⟨b, hb⟩ := hsome
        rw [hb]
        have hmem : b ∈ d :: rest ∨ (none : Option PhysicalDevice) = some b :=
          pickBest_mem (d :: rest) none b hb
        rcases hmem with hmem | habs
        · have hb0 := hzero b (hl ▸ hmem)
          show (if rateDeviceSuitability b > 0 then Except.ok b
              else Except.error "failed to find a suitable gpu")
            = Except.error "failed to find a suitable gpu"
          rw [if_neg (by omega)]
        · exact absurd habs (by simp)

/-- An adapter lacking the swapchain device extension; it scores 0. -/
def unsuitableAdapter : PhysicalDevice :=
  { deviceType := .discreteGpu, queueFamilies := [⟨true, true⟩],
    availableExtensions := [],
    surfaceFormatCount := 1, presentModeCount := 1,
    samplerAnisotropy := true, fillModeNonSolid := true }

theorem rateDeviceSuitability_spec_witness :
    pickPhysicalDevice [unsuitableAdapter] = .error "failed to find a suitable gpu" := by
  have h := rateDeviceSuitability_spec unsuitableAdapter [unsuitableAdapter]
  refine h.2.2.2 (by simp) ?_
  intro d hd
  rw [List.mem_singleton] at hd
  subst hd
  decide

/-! ## Frame synchronization and deferred cleanup
(`Graphics::present`, `Graphics::startRecordingGraphicsCommands`,
`Graphics::queueCleanUp`)

The observable synchronization behaviour of one frame slot is modelled as a
trace of events.  Closures are identified by `Nat` tokens.
`startRecordingGraphicsCommands` waits on the current slot's fence, runs and
clears the slot's deferred-cleanup queue, and begins the slot's command
buffer; `present` (after submitting) advances
`currentFrame = (currentFrame + 1) % MAX_FRAMES_IN_FLIGHT` and starts
recording on the new slot; `queueCleanUp` pushes a closure onto the current
slot's queue.  `initialFrameState` is the state right after `setMode`
(both queues empty, `currentFrame = 0`). -/

def MAX_FRAMES_IN_FLIGHT : Nat := 2

inductive FrameEvent where
  | waitFence (slot : Nat)
  | runCleanup (slot : Nat) (closure : Nat)
  | clearQueue (slot : Nat)
  | beginCommandBuffer (slot : Nat)
deriving DecidableEq, Repr

structure FrameSyncState where
  currentFrame : Nat
  cleanUpFunctions : List (List Nat)
  trace : List FrameEvent
deriving DecidableEq, Repr

/-- `Graphics::startRecordingGraphicsCommands`: wait on the current slot's
fence, execute every queued cleanup closure in order, clear the queue, then
begin the slot's command buffers. -/
def startRecordingGraphicsCommands (s : FrameSyncState) : FrameSyncState :=
  let k := s.currentFrame
  let q := s.cleanUpFunctions.getD k []
  { currentFrame := k,
    cleanUpFunctions := s.cleanUpFunctions.set k [],
    trace := s.trace ++ [.waitFence k] ++ q.map (.runCleanup k) ++
      [.clearQueue k, .beginCommandBuffer k] }

/-- `Graphics::queueCleanUp`:
`cleanUpFunctions.at(currentFrame).push_back(std::move(cleanUp));` -/
def queueCleanUp (s : FrameSyncState) (closure : Nat) : FrameSyncState :=
  let k := s.currentFrame
  let q := s.cleanUpFunctions.getD k []
  { s with cleanUpFunctions := s.cleanUpFunctions.set k (q ++ [closure]) }

/-- The frame-advancing tail of `Graphics::present`:
`currentFrame = (currentFrame + 1) % MAX_FRAMES_IN_FLIGHT;` followed by
`startRecordingGraphicsCommands()`. -/
def present (s : FrameSyncState) : FrameSyncState :=
  startRecordingGraphicsCommands
    { s with currentFrame := (s.currentFrame + 1) % MAX_FRAMES_IN_FLIGHT }

def initialFrameState : FrameSyncState :=
  { currentFrame := 0, cleanUpFunctions := [[], []], trace := [] }

theorem queueCleanUp_foldl (cs : List Nat) : ∀ (p : List Nat) (t : List FrameEvent),
    List.foldl queueCleanUp ⟨0, [p, []], t⟩ cs = ⟨0, [p ++ cs, []], t⟩ := by
  induction cs with
  | nil =>
      intro p t
      simp
  | cons c rest ih =>
      intro p t
      rw [List.foldl_cons]
      have hstep : queueCleanUp ⟨0, [p, []], t⟩ c = ⟨0, [p ++ [c], []], t⟩ := by
        simp [queueCleanUp]
      rw [hstep, ih]
      simp

theorem count_map_runCleanup (cs : List Nat) (k c : Nat) :
    (cs.map (FrameEvent.runCleanup k)).count (.runCleanup k c) = cs.count c := by
  induction cs with
  | nil => rfl
  | cons a rest ih =>
      simp only [List.map_cons, List.count_cons, ih]
      congr 1
      simp [FrameEvent.runCleanup.injEq]

/-- C7: one `present` cycle advances to the next frame slot, waits on that
slot's fence, then runs every cleanup closure queued in that slot exactly
once and in order, clears the queue, and only then begins the slot's
command buffer; in particular, starting from setup, closures enqueued into
slot 0 during cycle 0 have all been executed (each exactly once, between
slot 0's fence wait and slot 0's command-buffer begin) and the queue has
been emptied by the time `MAX_FRAMES_IN_FLIGHT + 1 = 3` presents have
elapsed - slot 0 was reused at the second present. -/
theorem present_cleanup_roundtrip (cs : List Nat) (c : Nat) :
    (∀ s : FrameSyncState,
      (present s).trace
        = s.trace ++ [.waitFence ((s.currentFrame + 1) % MAX_FRAMES_IN_FLIGHT)]
          ++ (s.cleanUpFunctions.getD ((s.currentFrame + 1) % MAX_FRAMES_IN_FLIGHT) []).map
              (.runCleanup ((s.currentFrame + 1) % MAX_FRAMES_IN_FLIGHT))
          ++ [.clearQueue ((s.currentFrame + 1) % MAX_FRAMES_IN_FLIGHT),
              .beginCommandBuffer ((s.currentFrame + 1) % MAX_FRAMES_IN_FLIGHT)]
      ∧ (present s).cleanUpFunctions.getD ((s.currentFrame + 1) % MAX_FRAMES_IN_FLIGHT) [] = [])
    ∧ (present (present (present (List.foldl queueCleanUp initialFrameState cs)))).trace
        = [.waitFence 1, .clearQueue 1, .beginCommandBuffer 1, .waitFence 0]
          ++ cs.map (FrameEvent.runCleanup 0)
          ++ [.clearQueue 0, .beginCommandBuffer 0,
              .waitFence 1, .clearQueue 1, .beginCommandBuffer 1]
    ∧ (present (present (present (List.foldl queueCleanUp initialFrameState cs)))).cleanUpFunctions
        = [[], []]
    ∧ (present (present (present (List.foldl queueCleanUp initialFrameState cs)))).trace.count
        (.runCleanup 0 c) = cs.count c := by
  have hs1 : List.foldl queueCleanUp initialFrameState cs = ⟨0, [cs, []], []⟩ := by
    have := queueCleanUp_foldl cs [] []
    simpa [initialFrameState] using this
  have hstep : ∀ s : FrameSyncState,
      (present s).trace
        = s.trace ++ [.waitFence ((s.currentFrame + 1) % MAX_FRAMES_IN_FLIGHT)]
          ++ (s.cleanUpFunctions.getD ((s.currentFrame + 1) % MAX_FRAMES_IN_FLIGHT) []).map
              (.runCleanup ((s.currentFrame + 1) % MAX_FRAMES_IN_FLIGHT))
          ++ [.clearQueue ((s.currentFrame + 1) % MAX_FRAMES_IN_FLIGHT),
              .beginCommandBuffer ((s.currentFrame + 1) % MAX_FRAMES_IN_FLIGHT)]
      ∧ (present s).cleanUpFunctions.getD ((s.currentFrame + 1) % MAX_FRAMES_IN_FLIGHT) [] = [] := by
    intro s
    constructor
    · simp [present, startRecordingGraphicsCommands]
    · simp only [present, startRecordingGraphicsCommands, List.getD, List.get?_eq_getElem?]
      rcases Nat.lt_or_ge ((s.currentFrame + 1) % MAX_FRAMES_IN_FLIGHT)
        s.cleanUpFunctions.length with h | h
      · rw [List.getElem?_set_self]
        · simp
        · simpa using h
      · rw [List.getElem?_eq_none (by simpa using h)]
        rfl
  have htrace : (present (present (present (List.foldl queueCleanUp initialFrameState cs)))).trace
      = [.waitFence 1, .clearQueue 1, .beginCommandBuffer 1, .waitFence 0]
        ++ cs.map (FrameEvent.runCleanup 0)
        ++ [.clearQueue 0, .beginCommandBuffer 0,
            .waitFence 1, .clearQueue 1, .beginCommandBuffer 1] := by
    rw [hs1]
    simp [present, startRecordingGraphicsCommands, MAX_FRAMES_IN_FLIGHT]
  have hqueues :
      (present (present (present (List.foldl queueCleanUp initialFrameState cs)))).cleanUpFunctions
        = [[], []] := by
    rw [hs1]
    simp [present, startRecordingGraphicsCommands, MAX_FRAMES_IN_FLIGHT]
  refine ⟨hstep, htrace, hqueues, ?_⟩
  rw [htrace]
  simp only [List.count_append, count_map_runCleanup]
  simp [List.count_cons, List.count_nil]

/-! ## State setters flush batched draws (`Graphics::setFrontFaceWinding`,
`setColorMask`, `setBlendState`, `setPointSize`, `setScissor` (both
overloads), `setWireframe`)

`DisplayState` is the relevant part of the current render-state snapshot
(`states.back()`); point size, a float, is modelled as a rational.
`GraphicsState` carries the snapshot, the amount of pending batched draw
data, and a log of flushes. -/

inductive Winding where
  | cw
  | ccw
deriving DecidableEq, Repr

structure ColorChannelMask where
  r : Bool
  g : Bool
  b : Bool
  a : Bool
deriving DecidableEq, Repr

structure BlendState where
  operationRGB : Nat
  operationA : Nat
  srcFactorRGB : Nat
  srcFactorA : Nat
  dstFactorRGB : Nat
  dstFactorA : Nat
  enable : Bool
deriving DecidableEq, Repr

structure Rect where
  x : Int
  y : Int
  w : Int
  h : Int
deriving DecidableEq, Repr

structure DisplayState where
  winding : Winding
  colorMask : ColorChannelMask
  blend : BlendState
  pointSize : ℚ
  scissor : Bool
  scissorRect : Rect
  wireframe : Bool
deriving DecidableEq, Repr

structure GraphicsState where
  states : DisplayState
  pendingBatchedDraws : Nat
  flushLog : List (Nat × DisplayState)
deriving DecidableEq, Repr

/-- Modelled from the spec: `flushBatchedDraws` lives in the base graphics
module outside `src/`; it issues the pending batched draw data using the
render state in effect at the time of the flush (logged here as a pair),
leaving no pending data. -/
def flushBatchedDraws (s : GraphicsState) : GraphicsState :=
  { s with
      pendingBatchedDraws := 0
      flushLog := s.flushLog ++ [(s.pendingBatchedDraws, s.states)] }

/-- `Graphics::setFrontFaceWinding`: returns early when the winding is
unchanged, otherwise flushes and then mutates. -/
def setFrontFaceWinding (s : GraphicsState) (winding : Winding) : GraphicsState :=
  if s.states.winding = winding then s
  else
    let s1 := flushBatchedDraws s
    { s1 with states := { s1.states with winding := winding } }

def setColorMask (s : GraphicsState) (mask : ColorChannelMask) : GraphicsState :=
  let s1 := flushBatchedDraws s
  { s1 with states := { s1.states with colorMask := mask } }

def setBlendState (s : GraphicsState) (blend : BlendState) : GraphicsState :=
  let s1 := flushBatchedDraws s
  { s1 with states := { s1.states with blend := blend } }

/-- `Graphics::setPointSize`: flushes only when the size differs, then
stores the size. -/
def setPointSize (s : GraphicsState) (size : ℚ) : GraphicsState :=
  let s1 := if size ≠ s.states.pointSize then flushBatchedDraws s else s
  { s1 with states := { s1.states with pointSize := size } }

/-- `Graphics::setScissor(const Rect&)`. -/
def setScissor (s : GraphicsState) (rect : Rect) : GraphicsState :=
  let s1 := flushBatchedDraws s
  { s1 with states := { s1.states with scissor := true, scissorRect := rect } }

/-- `Graphics::setScissor()` - the overload that disables the scissor. -/
def setScissorDisable (s : GraphicsState) : GraphicsState :=
  let s1 := flushBatchedDraws s
  { s1 with states := { s1.states with scissor := false } }

def setWireframe (s : GraphicsState) (enable : Bool) : GraphicsState :=
  let s1 := flushBatchedDraws s
  { s1 with states := { s1.states with wireframe := enable } }

/-- The flush-before-mutate contract: if the call changed the snapshot then
the previously pending batched draws were emitted under the old snapshot
and no pending data remains. -/
def FlushedBeforeMutation (s s2 : GraphicsState) : Prop :=
  s2.states ≠ s.states →
    s2.pendingBatchedDraws = 0
    ∧ s2.flushLog = s.flushLog ++ [(s.pendingBatchedDraws, s.states)]

/-- C8: every state setter flushes the pending batched draws (under the old
render-state snapshot) before its mutation of the current state snapshot
takes effect: whenever the call changes the snapshot, the pending batched
draw data has been emitted, paired with the pre-call snapshot. -/
theorem state_setters_flush (s : GraphicsState) (winding : Winding)
    (mask : ColorChannelMask) (blend : BlendState) (size : ℚ) (rect : Rect)
    (wf : Bool) :
    FlushedBeforeMutation s (setFrontFaceWinding s winding)
    ∧ FlushedBeforeMutation s (setColorMask s mask)
    ∧ FlushedBeforeMutation s (setBlendState s blend)
    ∧ FlushedBeforeMutation s (setPointSize s size)
    ∧ FlushedBeforeMutation s (setScissor s rect)
    ∧ FlushedBeforeMutation s (setScissorDisable s)
    ∧ FlushedBeforeMutation s (setWireframe s wf) := by
  refine ⟨?_, ?_, ?_, ?_, ?_, ?_, ?_⟩
  · intro hne
    by_cases h : s.states.winding = winding
    · simp [setFrontFaceWinding, h] at hne
    · simp [setFrontFaceWinding, h, flushBatchedDraws]
  · intro _
    simp [setColorMask, flushBatchedDraws]
  · intro _
    simp [setBlendState, flushBatchedDraws]
  · intro hne
    by_cases h : size = s.states.pointSize
    · simp [setPointSize, h] at hne
    · simp [setPointSize, h, flushBatchedDraws]
  · intro _
    simp [setScissor, flushBatchedDraws]
  · intro _
    simp [setScissorDisable, flushBatchedDraws]
  · intro _
    simp [setWireframe, flushBatchedDraws]

def sampleGraphicsState : GraphicsState :=
  { states :=
      { winding := .ccw, colorMask := ⟨true, true, true, true⟩,
        blend := ⟨0, 0, 0, 0, 0, 0, true⟩, pointSize := 1,
        scissor := false, scissorRect := ⟨0, 0, 0, 0⟩, wireframe := false },
    pendingBatchedDraws := 3, flushLog := [] }

theorem state_setters_flush_witness :
    (setWireframe sampleGraphicsState true).states ≠ sampleGraphicsState.states
    ∧ (setWireframe sampleGraphicsState true).pendingBatchedDraws = 0
    ∧ (setWireframe sampleGraphicsState true).flushLog
        = sampleGraphicsState.flushLog
          ++ [(sampleGraphicsState.pendingBatchedDraws, sampleGraphicsState.states)] := by
  have hne : (setWireframe sampleGraphicsState true).states ≠ sampleGraphicsState.states := by
    decide
  have h := (state_setters_flush sampleGraphicsState .cw ⟨true, true, true, true⟩
    ⟨0, 0, 0, 0, 0, 0, true⟩ 1 ⟨0, 0, 0, 0⟩ true).2.2.2.2.2.2 hne
  exact ⟨hne, h⟩

/-! ## Index-type translation (`getVulkanIndexBufferType`,
`Graphics::draw(const DrawIndexedCommand&)`)

`IndexDataType.maxEnum` stands for `INDEX_MAX_ENUM`/any unsupported value
hitting the `default` label. -/

inductive IndexDataType where
  | uint16
  | uint32
  | maxEnum
deriving DecidableEq, Repr

inductive VkIndexType where
  | uint16
  | uint32
deriving DecidableEq, Repr

/-- `getVulkanIndexBufferType`: 16- and 32-bit indices translate; anything
else throws `love::Exception("unknown Index Data type")`. -/
def getVulkanIndexBufferType : IndexDataType → Except String VkIndexType
  | .uint16 => .ok .uint16
  | .uint32 => .ok .uint32
  | .maxEnum => .error "unknown Index Data type"

inductive RecordedCommand where
  | prepareDrawCommands
  | bindIndexBuffer (indexType : VkIndexType)
  | drawIndexed (indexCount instanceCount : Nat)
deriving DecidableEq, Repr

structure DrawIndexedResult where
  recorded : List RecordedCommand
  raised : Option String
deriving DecidableEq, Repr

/-- `Graphics::draw(const DrawIndexedCommand&)`: `prepareDraw` records its
commands first; the exception thrown while evaluating
`getVulkanIndexBufferType(cmd.indexType)` aborts the call before
`vkCmdBindIndexBuffer` and `vkCmdDrawIndexed` are recorded. -/
def drawIndexedCommand (indexType : IndexDataType) (indexCount instanceCount : Nat) :
    DrawIndexedResult :=
  match getVulkanIndexBufferType indexType with
  | .ok t =>
      { recorded := [.prepareDrawCommands, .bindIndexBuffer t,
          .drawIndexed indexCount instanceCount],
        raised := none }
  | .error e =>
      { recorded := [.prepareDrawCommands], raised := some e }

/-- C9: an indexed draw whose index data type is neither 16-bit nor 32-bit
unsigned raises the exception "unknown Index Data type" and records no
indexed-draw command, while the two supported types never raise from
index-type translation. -/
theorem drawIndexed_unknown_index_type (t : IndexDataType) (n m : Nat) :
    ((t ≠ IndexDataType.uint16 ∧ t ≠ IndexDataType.uint32) →
      (drawIndexedCommand t n m).raised = some "unknown Index Data type"
      ∧ ∀ k l, RecordedCommand.drawIndexed k l ∉ (drawIndexedCommand t n m).recorded)
    ∧ ((t = IndexDataType.uint16 ∨ t = IndexDataType.uint32) →
      (drawIndexedCommand t n m).raised = none) := by
  cases t <;> simp [drawIndexedCommand, getVulkanIndexBufferType]

theorem drawIndexed_unknown_index_type_witness :
    (drawIndexedCommand .maxEnum 6 1).raised = some "unknown Index Data type"
    ∧ RecordedCommand.drawIndexed 6 1 ∉ (drawIndexedCommand .maxEnum 6 1).recorded
    ∧ (drawIndexedCommand .uint16 6 1).raised = none := by
  have h := drawIndexed_unknown_index_type .maxEnum 6 1
  have h16 := drawIndexed_unknown_index_type .uint16 6 1
  exact ⟨(h.1 ⟨by decide, by decide⟩).1, (h.1 ⟨by decide, by decide⟩).2 6 1,
    h16.2 (Or.inl rfl)⟩

/-! ## Color clamping (`Graphics::setColor`,
`Graphics::getCurrentBuiltinUniformData`) -/

structure Colorf where
  r : ℝ
  g : ℝ
  b : ℝ
  a : ℝ

/-- `Graphics::setColor`: each component is clamped with
`std::min(std::max(c, 0.0f), 1.0f)` before the color is stored in
`states.back().color`.  Floats are modelled as reals (NaN excluded). -/
def setColor (c : Colorf) : Colorf :=
  { r := min (max c.r 0) 1,
    g := min (max c.g 0) 1,
    b := min (max c.b 0) 1,
    a := min (max c.a 0) 1 }

/-- Modelled from the spec: `love::math::gammaToLinear` (outside `src/`) is
the sRGB gamma-to-linear transfer applied to the constant color in
`getCurrentBuiltinUniformData`. -/
noncomputable def gammaToLinear (x : ℝ) : ℝ :=
  if x ≤ 0.04045 then x / 12.92 else ((x + 0.055) / 1.055) ^ (2.4 : ℝ)

/-- Modelled from the spec: `gammaCorrectColor` (base graphics module,
outside `src/`) maps the r, g, b components through `gammaToLinear` when
gamma correction is enabled and leaves the color unchanged otherwise. -/
noncomputable def gammaCorrectColor (gammaCorrect : Bool) (c : Colorf) : Colorf :=
  if gammaCorrect then
    { r := gammaToLinear c.r, g := gammaToLinear c.g, b := gammaToLinear c.b, a := c.a }
  else
    c

def inUnitInterval (c : Colorf) : Prop :=
  0 ≤ c.r ∧ c.r ≤ 1 ∧ 0 ≤ c.g ∧ c.g ≤ 1 ∧ 0 ≤ c.b ∧ c.b ≤ 1 ∧ 0 ≤ c.a ∧ c.a ≤ 1

theorem gammaToLinear_unit {x : ℝ} (h0 : 0 ≤ x) (h1 : x ≤ 1) :
    0 ≤ gammaToLinear x ∧ gammaToLinear x ≤ 1 := by
  rw [gammaToLinear]
  by_cases h : x ≤ 0.04045
  · rw [if_pos h]
    constructor
    · positivity
    · rw [div_le_one (by norm_num)]
      linarith
  · rw [if_neg h]
    have hb0 : 0 ≤ (x + 0.055) / 1.055 := by positivity
    have hb1 : (x + 0.055) / 1.055 ≤ 1 := by
      rw [div_le_one (by norm_num)]
      linarith
    constructor
    · exact Real.rpow_nonneg hb0 _
    · exact Real.rpow_le_one hb0 hb1 (by norm_num)

/-- C10: `setColor` clamps each component of the stored color into [0, 1],
so the constant color later pushed in the built-in uniform block (the
stored color after gamma correction) also has every component in [0, 1]. -/
theorem setColor_clamped_unit (c : Colorf) (gammaCorrect : Bool) :
    inUnitInterval (setColor c)
    ∧ inUnitInterval (gammaCorrectColor gammaCorrect (setColor c)) := by
  have hclamp : ∀ x : ℝ, 0 ≤ min (max x 0) 1 ∧ min (max x 0) 1 ≤ 1 := by
    intro x
    exact ⟨le_min (le_max_right _ _) zero_le_one, min_le_right _ _⟩
  have h1 : inUnitInterval (setColor c) := by
    obtain ⟨hr1, hr2⟩ := hclamp c.r
    obtain ⟨hg1, hg2⟩ := hclamp c.g
    obtain ⟨hb1, hb2⟩ := hclamp c.b
    obtain ⟨ha1, ha2⟩ := hclamp c.a
    exact ⟨hr1, hr2, hg1, hg2, hb1, hb2, ha1, ha2⟩
  refine ⟨h1, ?_⟩
  obtain ⟨hr1, hr2, hg1, hg2, hb1, hb2, ha1, ha2⟩ := h1
  cases gammaCorrect with
  | false => exact ⟨hr1, hr2, hg1, hg2, hb1, hb2, ha1, ha2⟩
  | true =>
      obtain ⟨gr1, gr2⟩ := gammaToLinear_unit hr1 hr2
      obtain ⟨gg1, gg2⟩ := gammaToLinear_unit hg1 hg2
      obtain ⟨gb1, gb2⟩ := gammaToLinear_unit hb1 hb2
      exact ⟨gr1, gr2, gg1, gg2, gb1, gb2, ha1, ha2⟩

end LoveVulkan
